import Mathlib

/-!
Shallow embedding of `src/reindexer.go` (package main of skurik/sphinx-reindexer).

File contents, log lines and network buffers are modelled as `List Char`,
one `Char` standing for one byte (all inputs considered are ASCII).
Fallible Go functions returning `(T, error)` are modelled as `Except String T`.
`time.Time` values produced by `time.Parse` of the fixed layout
`"Mon Jan 2 15:04:05 2006"` are UTC wall-clock values; they are modelled by
the record `GoTime` below, and `time.Time.After` (comparison of absolute
instants) coincides, for such values, with lexicographic comparison of
(year, month, day, hour, minute, second, nanosecond).
-/

namespace SphinxReindexer

/-- ASCII decimal digit test, as used by the `[0-9]` character class. -/
def isDigitCh (c : Char) : Bool := '0' ≤ c && c ≤ '9'

/-- Perl class `\s` of RE2 is `[\t\n\f\r ]` (Go `regexp`). -/
def isGoSpace (c : Char) : Bool :=
  c = ' ' || c = '\t' || c = '\n' || c = '\x0c' || c = '\r'

def digitVal (c : Char) : Nat := c.toNat - 48

/-- Model of `strconv.Atoi` with the error ignored, as in the `atoi` helper
of the source (src line 217): on any non-numeric input the zero value 0 is
returned. -/
def atoi (l : List Char) : Nat :=
  if l ≠ [] && l.all isDigitCh then
    l.foldl (fun a c => a * 10 + digitVal c) 0
  else 0

/-- Split function `bufio.ScanLines` drops one trailing carriage return
from a token. -/
def dropCR (l : List Char) : List Char :=
  if l.getLast? = some '\x0d' then l.dropLast else l

/-- Fuel-driven splitter behind `goScanLines`; fuel ≥ length of the input
makes it total on the input. -/
def scanAux : Nat → List Char → List (List Char)
  | 0, _ => []
  | _ + 1, [] => []
  | fuel + 1, content =>
    let line := content.takeWhile (fun c => c ≠ '\n')
    let rest := content.dropWhile (fun c => c ≠ '\n')
    dropCR line ::
      match rest with
      | [] => []
      | _ :: tl => scanAux fuel tl

/-- The sequence of lines produced by a `bufio.Scanner` with the default
`ScanLines` split function reading the given content (src `readLines`,
lines 124–131, and the per-iteration `scanner.Scan()` of `waitForRotation`):
tokens are separated by `'\n'`, a trailing `'\r'` is stripped from each
token, a final unterminated line is returned, and a trailing newline does
not produce an extra empty token. -/
def goScanLines (content : List Char) : List (List Char) :=
  scanAux content.length content

/-- Wall-clock value of a parsed Go `time.Time` (UTC, no zone in the layout). -/
structure GoTime where
  year : Nat
  month : Nat
  day : Nat
  hour : Nat
  minute : Nat
  second : Nat
  nsec : Nat
deriving DecidableEq, Repr

/-- The zero `time.Time`: January 1, year 1, 00:00:00 UTC. -/
def zeroTime : GoTime := ⟨1, 1, 1, 0, 0, 0, 0⟩

/-- Injective key realising lexicographic order on calendar-valid fields
(month ≤ 12, day ≤ 31, hour < 24, minute, second < 60, nsec < 10^9). -/
def GoTime.key (t : GoTime) : Nat :=
  ((((((t.year * 13 + t.month) * 32 + t.day) * 24 + t.hour) * 60
      + t.minute) * 60 + t.second)) * 1000000000 + t.nsec

/-- Model of `time.Time.After`: `t.after u` iff the instant `t` is strictly later
than `u`. For calendar-valid UTC values this is lexicographic comparison. -/
def GoTime.after (t u : GoTime) : Bool := decide (u.key < t.key)

/-- Go month abbreviations of layout element `Jan`, mapped to 1–12. -/
def monthOfAbbrev (l : List Char) : Option Nat :=
  if l = "Jan".toList then some 1
  else if l = "Feb".toList then some 2
  else if l = "Mar".toList then some 3
  else if l = "Apr".toList then some 4
  else if l = "May".toList then some 5
  else if l = "Jun".toList then some 6
  else if l = "Jul".toList then some 7
  else if l = "Aug".toList then some 8
  else if l = "Sep".toList then some 9
  else if l = "Oct".toList then some 10
  else if l = "Nov".toList then some 11
  else if l = "Dec".toList then some 12
  else none

/-- Go weekday abbreviations of layout element `Mon` (parsed and discarded:
`time.Parse` does not check consistency with the date). -/
def isWeekdayAbbrev (l : List Char) : Bool :=
  l = "Sun".toList || l = "Mon".toList || l = "Tue".toList ||
  l = "Wed".toList || l = "Thu".toList || l = "Fri".toList || l = "Sat".toList

/-- Go helper `getnum` with `fixed = false` (layout `2`, `15`): one digit, or two if
the second character is also a digit. Returns the value and the rest. -/
def parseNum2 : List Char → Option (Nat × List Char)
  | c1 :: c2 :: rest =>
    if isDigitCh c1 then
      if isDigitCh c2 then some (digitVal c1 * 10 + digitVal c2, rest)
      else some (digitVal c1, c2 :: rest)
    else none
  | [c1] => if isDigitCh c1 then some (digitVal c1, []) else none
  | [] => none

/-- Go helper `getnum` with `fixed = true` (layout `04`, `05`): exactly two digits. -/
def parseNum2Fixed : List Char → Option (Nat × List Char)
  | c1 :: c2 :: rest =>
    if isDigitCh c1 && isDigitCh c2 then
      some (digitVal c1 * 10 + digitVal c2, rest)
    else none
  | _ => none

/-- Gregorian leap-year rule used by the Go function `daysIn`. -/
def isLeapYear (y : Nat) : Bool := y % 4 = 0 && (y % 100 ≠ 0 || y % 400 = 0)

/-- Days in a month, per the Go function `daysIn`. -/
def daysIn (month year : Nat) : Nat :=
  if month = 2 then (if isLeapYear year then 29 else 28)
  else if month = 4 || month = 6 || month = 9 || month = 11 then 30
  else 31

/-- Model of `time.Parse "Mon Jan 2 15:04:05 2006"` on an ASCII input, as called at
src lines 42 and 209: weekday abbreviation (consistency not checked), month
abbreviation, 1–2 digit day, `hh:mm:ss` with 1–2 digit hour and 2-digit
minute and second, a 4-digit year, and nothing after it; hour < 24,
minute < 60, second < 60 and 1 ≤ day ≤ daysIn(month, year) are required,
exactly as the range checks of Go. `none` models a non-nil parse error. -/
def parseGoTime (s : List Char) : Option GoTime := do
  match s with
  | w1 :: w2 :: w3 :: ' ' :: m1 :: m2 :: m3 :: ' ' :: rest =>
    if isWeekdayAbbrev [w1, w2, w3] then
      let mon ← monthOfAbbrev [m1, m2, m3]
      let (day, rest1) ← parseNum2 rest
      match rest1 with
      | ' ' :: rest2 =>
        let (hour, rest3) ← parseNum2 rest2
        match rest3 with
        | ':' :: rest4 =>
          let (minute, rest5) ← parseNum2Fixed rest4
          match rest5 with
          | ':' :: rest6 =>
            let (second, rest7) ← parseNum2Fixed rest6
            match rest7 with
            | ' ' :: y1 :: y2 :: y3 :: y4 :: rest8 =>
              if isDigitCh y1 && isDigitCh y2 && isDigitCh y3 &&
                 isDigitCh y4 && rest8 = [] then
                let year := digitVal y1 * 1000 + digitVal y2 * 100 +
                            digitVal y3 * 10 + digitVal y4
                if hour < 24 && minute < 60 && second < 60 &&
                   1 ≤ day && day ≤ daysIn mon year then
                  some ⟨year, mon, day, hour, minute, second, 0⟩
                else none
              else none
            | _ => none
          | _ => none
        | _ => none
      | _ => none
    else none
  | _ => none

/-- Tail of the pattern `\[([^\]]*)\.([0-9]{3})\s([0-9]{4})\]` after the
first capture group: a literal dot, the 3-digit millisecond group, one `\s`
character, the 4-digit year group, and the closing bracket. Returns the
millisecond group, the year group and the rest of the input. -/
def matchTailAt : List Char → Option (List Char × List Char × List Char)
  | '.' :: d1 :: d2 :: d3 :: w :: y1 :: y2 :: y3 :: y4 :: ']' :: rest =>
    if isDigitCh d1 && isDigitCh d2 && isDigitCh d3 && isGoSpace w &&
       isDigitCh y1 && isDigitCh y2 && isDigitCh y3 && isDigitCh y4 then
      some ([d1, d2, d3], [y1, y2, y3, y4], rest)
    else none
  | _ => none

/-- Greedy choice of the first capture group `([^\]]*)`: try the longest
candidate first and backtrack, as the regex engine does. `body` is the text
after the opening `[`; the argument `k` is the candidate length. -/
def findSplit (body : List Char) : Nat → Option (List Char × List Char × List Char × List Char)
  | 0 =>
    match matchTailAt body with
    | some (ms, yr, rest) => some ([], ms, yr, rest)
    | none => none
  | k + 1 =>
    let g1 := body.take (k + 1)
    if g1.all (fun c => c ≠ ']') then
      match matchTailAt (body.drop (k + 1)) with
      | some (ms, yr, rest) => some (g1, ms, yr, rest)
      | none => findSplit body k
    else findSplit body k

/-- Match of `searchdLogLinePrefix` = `\[([^\]]*)\.([0-9]{3})\s([0-9]{4})\]`
(src line 41) anchored at the start of `s`. Returns the three capture
groups and the rest of the input after the match. -/
def matchPreAt (s : List Char) : Option (List Char × List Char × List Char × List Char) :=
  match s with
  | '[' :: body => findSplit body body.length
  | _ => none

/-- Leftmost match of `searchdLogLinePrefix`, i.e. the capture groups that
`FindStringSubmatch` returns (src line 204): the match at the leftmost
possible start position. -/
def findSubmatch : List Char → Option (List Char × List Char × List Char)
  | [] => none
  | c :: tl =>
    match matchPreAt (c :: tl) with
    | some (g1, ms, yr, _) => some (g1, ms, yr)
    | none => findSubmatch tl

/-- Test that `needle` occurs as a contiguous segment of `hay`. -/
def containsList (hay needle : List Char) : Bool :=
  match hay with
  | [] => needle.isEmpty
  | _ :: tl => needle.isPrefixOf hay || containsList tl needle

/-- The regex compiled at src line 180,
`\[([^\]]*)\.([0-9]{3})\s([0-9]{4})\].*` + expression, matches the line
(`len(match) > 1` in the source is equivalent to a match, since a match
always carries the three groups). `expression` is the literal marker text
`rotating index: all indexes done`, which contains no regex metacharacter,
and `.*` cannot cross a newline but scanned lines contain none: the regex
matches iff the bracketed timestamp pattern matches somewhere in the line
with the marker text occurring at or after the end of that match. -/
def hasMarkerMatch (s expression : List Char) : Bool :=
  match s with
  | [] => false
  | c :: tl =>
    (match matchPreAt (c :: tl) with
     | some (_, _, _, rest) => containsList rest expression
     | none => false)
    || hasMarkerMatch tl expression

/-- Model of `timeFromLog` (src lines 203–215): on a line matched by
`searchdLogLinePrefix`, parse capture group 1 plus a space plus the year
group with `time.Parse` — the parse error is discarded (`date, _ :=`), so a
failed parse leaves the zero `time.Time`. The source then evaluates
`date.Add(time.Millisecond * time.Duration(atoi(milliseconds)))` at line
210 and discards the returned value (`time.Time.Add` returns a new value
and mutates nothing), so the milliseconds never enter the result, and the
unmodified `date` is returned with a nil error. Lines without a prefix
match yield the error `Could not match a timestamp prefix`. -/
def timeFromLog (line : List Char) : Except String GoTime :=
  match findSubmatch line with
  | some (dateStr, _ms, year) =>
    Except.ok ((parseGoTime (dateStr ++ ' ' :: year)).getD zeroTime)
  | none => Except.error "Could not match a timestamp prefix"

/-- Seek position used by both `getLastTimestamp` (src line 144) and
`waitForRotation` (src line 175):
`file.Seek(-min(1024, max(float64(fileLength - 1), 0)), io.SeekEnd)`,
i.e. the resulting read offset from the start of a file of length `L` is
`L - min 1024 (max (L - 1) 0)` in exact integer arithmetic (the float
arithmetic is exact for these magnitudes). -/
def tailSeekPos (L : Nat) : Nat :=
  ((L : Int) - min 1024 (max ((L : Int) - 1) 0)).toNat

/-- The bytes actually read after the seek: from the seek position to the
end of file. -/
def tailWindow (content : List Char) : List Char :=
  content.drop (tailSeekPos content.length)

/-- Model of `baseDate` (src line 42): `time.Parse(dateFormat, "Fri Sep 7 10:00:00
2012")` with the error discarded. -/
def baseDate : GoTime :=
  (parseGoTime ("Fri Sep 7 10:00:00 2012".toList)).getD zeroTime

/-- Model of `getLastTimestamp` (src lines 133–159) on the content of a readable
file: seek to the tail window, read its lines; an empty line list yields
`baseDate`, otherwise the timestamp extracted from the last line (and the
error of the extractor, if any, is propagated). -/
def getLastTimestamp (content : List Char) : Except String GoTime :=
  let lines := goScanLines (tailWindow content)
  match lines.getLast? with
  | none => Except.ok baseDate
  | some last => timeFromLog last

/-- The completion marker passed to `waitForRotation` at src line 121. -/
def markerExpr : List Char := "rotating index: all indexes done".toList

/-- One-past-the-loop body of `waitForRotation` (src lines 181–198), on the
content of a file that does not change while the poll runs. The file is
opened and positioned at the tail window once, before the loop. Each
iteration constructs a fresh `bufio.Scanner` on the file and calls
`scanner.Scan()` once: the first read of the scanner consumes everything left at
the current offset (the window is at most 1024 bytes, below the initial
4096-byte scanner read, and a regular-file read returns the available
bytes), so the first iteration obtains the first complete line of the
window and leaves the offset at end of file, and every later iteration
obtains the empty string. `rem` is the list of unread lines at the current
offset; iterating continues with `[]`. The second component counts the
loop iterations executed. -/
def waitLoopGo (expression : List Char) (threshold : GoTime) :
    Nat → List (List Char) → Except String Unit × Nat
  | 0, _ => (Except.ok (), 0)
  | fuel + 1, rem =>
    let line := rem.head?.getD []
    if line ≠ [] then
      if hasMarkerMatch line expression then
        match timeFromLog line with
        | Except.error e => (Except.error e, 1)
        | Except.ok date =>
          if date.after threshold then (Except.ok (), 1)
          else
            let p := waitLoopGo expression threshold fuel []
            (p.1, p.2 + 1)
      else
        let p := waitLoopGo expression threshold fuel []
        (p.1, p.2 + 1)
    else
      let p := waitLoopGo expression threshold fuel []
      (p.1, p.2 + 1)

/-- Model of `waitForRotation` (src lines 161–201) on the content of a readable file
that does not change during the poll, instrumented with the number of loop
iterations executed: seek once to the tail window, then run the 10-bounded
loop. `file.Seek(0, 1)` at src line 182 moves by 0 from the current
position and changes nothing. -/
def waitForRotationGo (content expression : List Char) (threshold : GoTime) :
    Except String Unit × Nat :=
  waitLoopGo expression threshold 10 (goScanLines (tailWindow content))

/-- The error value `waitForRotation` returns. -/
def waitForRotation (content expression : List Char) (threshold : GoTime) :
    Except String Unit :=
  (waitForRotationGo content expression threshold).1

/-- Number of loop iterations the poll executes. -/
def pollCount (content expression : List Char) (threshold : GoTime) : Nat :=
  (waitForRotationGo content expression threshold).2

/-- The only line the scanner of the poller ever yields on an unchanging file:
the first complete line of the tail window (empty if the window has none). -/
def inspectedLine (content : List Char) : List Char :=
  (goScanLines (tailWindow content)).head?.getD []

/-- A line matches the prefixed marker regex and carries an extracted
timestamp strictly after the threshold. -/
def matchesAfterB (line expression : List Char) (threshold : GoTime) : Bool :=
  hasMarkerMatch line expression &&
    (match timeFromLog line with
     | Except.ok d => d.after threshold
     | Except.error _ => false)

/-- The break condition of the source as a Boolean on a line: nonempty, matched
by the prefixed marker regex, and with extracted timestamp strictly after
the threshold (an extraction error does not break; it returns early). -/
def breakCondB (line expression : List Char) (threshold : GoTime) : Bool :=
  !line.isEmpty && matchesAfterB line expression threshold

/-- Model of `reindex` (src lines 113–122): capture the watermark from the
current log content, launch the indexer (`err = cmd.Run()` at src line 119 —
the assigned error is never examined afterwards), then return the result
of `waitForRotation` on the content of the log at poll time with the marker and
the captured watermark. `launchResult` models the outcome of `cmd.Run()`;
the two content arguments model the shared log at the two read instants. -/
def reindex (logAtCapture logAtPoll : List Char)
    (launchResult : Except String Unit) : Except String Unit :=
  match getLastTimestamp logAtCapture with
  | Except.error e => Except.error e
  | Except.ok lastDate =>
    let _ := launchResult
    waitForRotation logAtPoll markerExpr lastDate

/-- Decoded request body (src lines 30–33). -/
structure Request where
  type : String
  index : String
deriving DecidableEq, Repr

/-- Response body written back to the client (src lines 35–38); the source
writes its JSON encoding, modelled here by the value itself. -/
structure Response where
  message : String
  error : String
deriving DecidableEq, Repr

/-- JSON whitespace accepted by `encoding/json` after the top-level value:
space, tab, newline, carriage return. A NUL byte is not among them. -/
def isJsonWS (c : Char) : Bool :=
  c = ' ' || c = '\t' || c = '\n' || c = '\r'

/-- Minimal JSON string literal: a quote, characters other than quote and
backslash, a closing quote. The field values of the wire format need nothing
more; an input using escapes is outside the scope of this model. -/
def parseJsonStr : List Char → Option (List Char × List Char)
  | '"' :: rest =>
    let body := rest.takeWhile (fun c => c ≠ '"' && c ≠ '\\')
    match rest.drop body.length with
    | '"' :: rest2 => some (body, rest2)
    | _ => none
  | _ => none

/-- Members of a JSON object `"key": "value", ...` up to and including the
closing brace, folding the fields into a `Request` as `json.Unmarshal`
does: the keys `Type` and `Index` populate the struct (last occurrence
wins), unknown keys are ignored, absent keys leave the zero value `""`. -/
def parseJsonMembers : Nat → List Char → Request → Option (Request × List Char)
  | 0, _, _ => none
  | fuel + 1, l, acc =>
    let l1 := l.dropWhile isJsonWS
    match parseJsonStr l1 with
    | none => none
    | some (key, r1) =>
      let r2 := r1.dropWhile isJsonWS
      match r2 with
      | ':' :: r3 =>
        let r4 := r3.dropWhile isJsonWS
        match parseJsonStr r4 with
        | none => none
        | some (v, r5) =>
          let acc2 :=
            if key = "Type".toList then { acc with type := String.mk v }
            else if key = "Index".toList then { acc with index := String.mk v }
            else acc
          let r6 := r5.dropWhile isJsonWS
          match r6 with
          | ',' :: r7 => parseJsonMembers fuel r7 acc2
          | '\x7d' :: r7 => some (acc2, r7)
          | _ => none
      | _ => none

/-- Model of `json.Unmarshal(buf, &request)` (src line 82) on the wire format of §6:
a JSON object whose members are string-valued. `Unmarshal` scans the whole
byte slice; once the top-level value has ended, only JSON whitespace may
follow — any other byte (in particular the NUL bytes that fill the unread
remainder of the fixed 1024-byte buffer) is a syntax error. Error messages
are abbreviated; only their presence matters to the handler. -/
def jsonDecodeRequest (buf : List Char) : Except String Request :=
  let l := buf.dropWhile isJsonWS
  match l with
  | '\x7b' :: rest =>
    let r1 := rest.dropWhile isJsonWS
    let parsed :=
      match r1 with
      | '\x7d' :: r2 => some (Request.mk "" "", r2)
      | _ => parseJsonMembers buf.length r1 (Request.mk "" "")
    match parsed with
    | none => Except.error "invalid character in object"
    | some (req, rest2) =>
      if rest2.dropWhile isJsonWS = [] then Except.ok req
      else Except.error "invalid trailing character after top-level value"
  | _ => Except.error "invalid character looking for beginning of value"

/-- The buffer `handleRequest` decodes (src lines 74–82): `make([]byte,
1024)` filled by a single `conn.Read` that delivers the whole payload (of
at most 1024 bytes); the bytes past the payload keep their zero value, and
the read count is ignored by the source. -/
def connBuffer (payload : List Char) : List Char :=
  payload ++ List.replicate (1024 - payload.length) '\x00'

/-- The dispatch of `handleRequest` on a successfully decoded request (src
lines 88–105): `ping` answers `{"pong", ""}`; any type other than
`reindex` answers `{"", "Unknown request: " + Type}`; `reindex` runs the
orchestrator and maps its outcome. -/
def handleDecoded (req : Request) (logAtCapture logAtPoll : List Char)
    (launchResult : Except String Unit) : Response :=
  if req.type = "ping" then Response.mk "pong" ""
  else if req.type ≠ "reindex" then
    Response.mk "" ("Unknown request: " ++ req.type)
  else
    match reindex logAtCapture logAtPoll launchResult with
    | Except.error e => Response.mk "" ("Reindexing error: " ++ e)
    | Except.ok _ => Response.mk "OK" ""

/-- Model of `handleRequest` (src lines 69–106) reduced to the response it writes:
decode the 1024-byte buffer holding the payload; a decode error short-
circuits to the decode-error response, otherwise dispatch. -/
def handleRequest (payload logAtCapture logAtPoll : List Char)
    (launchResult : Except String Unit) : Response :=
  match jsonDecodeRequest (connBuffer payload) with
  | Except.error e =>
    Response.mk "" ("Could not decode the request JSON: " ++ e)
  | Except.ok req => handleDecoded req logAtCapture logAtPoll launchResult

/-- Modelled from the spec (§4.3, the reading of claim C2): each poll iteration
re-reads the tail window from the current end of file and inspects the
single most recent complete line of it. On a file that does not change
during the poll, that line is the last line of the tail window on every
iteration. -/
def specMostRecentLine (content : List Char) : List Char :=
  (goScanLines (tailWindow content)).getLast?.getD []

/-- Modelled from the spec (§4.3): the poller stops at the first iteration
exactly when the most recent complete line matches the marker with a
post-watermark timestamp, and otherwise exhausts all 10 iterations. -/
def specPollCount (content expression : List Char) (threshold : GoTime) : Nat :=
  if breakCondB (specMostRecentLine content) expression threshold then 1 else 10

/-! Helper lemmas about the poll loop and the regex model. -/

theorem markerMatch_findSome {l e : List Char} (h : hasMarkerMatch l e = true) :
    (findSubmatch l).isSome = true := by
  induction l with
  | nil => simp [hasMarkerMatch] at h
  | cons c tl ih =>
    rw [hasMarkerMatch] at h
    rw [findSubmatch]
    cases hm : matchPreAt (c :: tl) with
    | some r => obtain ⟨g1, ms, yr, rest⟩ := r; simp [hm]
    | none =>
      rw [hm] at h
      simp only [Bool.false_or] at h
      cases hp : matchPreAt tl with
      | _ => exact ih h

theorem markerMatch_time_ok {l e : List Char} (h : hasMarkerMatch l e = true) :
    ∃ d, timeFromLog l = Except.ok d := by
  have hs := markerMatch_findSome h
  cases hf : findSubmatch l with
  | none => rw [hf] at hs; simp at hs
  | some r =>
    obtain ⟨g1, ms, yr⟩ := r
    exact ⟨(parseGoTime (g1 ++ ' ' :: yr)).getD zeroTime, by simp [timeFromLog, hf]⟩

theorem findSubmatch_none_of_error {l : List Char} {s : String}
    (h : timeFromLog l = Except.error s) : findSubmatch l = none := by
  cases hf : findSubmatch l with
  | none => rfl
  | some r =>
    obtain ⟨g1, ms, yr⟩ := r
    rw [timeFromLog, hf] at h
    simp at h

theorem marker_false_of_error {l e : List Char} {s : String}
    (h : timeFromLog l = Except.error s) : hasMarkerMatch l e = false := by
  cases hb : hasMarkerMatch l e with
  | false => rfl
  | true =>
    obtain ⟨d, hd⟩ := markerMatch_time_ok hb
    rw [hd] at h
    exact absurd h (by simp)

theorem waitLoop_nil (e : List Char) (th : GoTime) :
    ∀ f, waitLoopGo e th f [] = (Except.ok (), f) := by
  intro f
  induction f with
  | zero => rfl
  | succ f ih => rw [waitLoopGo]; simp [ih]

/-- Closed form of one unfolding of the poll loop: the loop always ends in
success, after one iteration when the first unread line satisfies the
break condition and after all remaining iterations otherwise. -/
theorem waitLoop_succ (e : List Char) (th : GoTime) (f : Nat) (rem : List (List Char)) :
    waitLoopGo e th (f + 1) rem =
      (Except.ok (), if breakCondB (rem.head?.getD []) e th then 1 else f + 1) := by
  rw [waitLoopGo]
  by_cases hl : rem.head?.getD [] = []
  · simp [hl, breakCondB, waitLoop_nil]
  · cases hm : hasMarkerMatch (rem.head?.getD []) e with
    | false =>
      simp [hl, hm, breakCondB, matchesAfterB, waitLoop_nil]
    | true =>
      obtain ⟨d, hd⟩ := markerMatch_time_ok hm
      cases ha : d.after th with
      | false =>
        simp [hl, hm, hd, ha, breakCondB, matchesAfterB, waitLoop_nil]
      | true =>
        simp [hl, hm, hd, ha, breakCondB, matchesAfterB]

/-- Closed form of the whole poll on an unchanging file: it returns
success, after one iteration when the first window line satisfies the
break condition and after all 10 otherwise. -/
theorem waitForRotation_closed (content expression : List Char) (threshold : GoTime) :
    waitForRotationGo content expression threshold =
      (Except.ok (),
       if breakCondB (inspectedLine content) expression threshold then 1 else 10) := by
  rw [waitForRotationGo, show (10 : Nat) = 9 + 1 from rfl, waitLoop_succ]
  rfl

/-! Claims. -/

/-- Claim C1: the claim states that the millisecond capture group is added
to the composed timestamp, so that of two lines with identical
date-and-year fields and milliseconds 500 > 100 the first extracts to a
strictly later instant. In the source the value returned by `time.Time.Add`
at line 210 is discarded, so both lines extract to the same instant
(15:04:05.000) and the first is not after the second: the code contradicts
the claim. -/
theorem c1_millisecond_not_applied :
    timeFromLog "[Mon Jan 2 15:04:05.500 2012] a".toList =
      Except.ok ⟨2012, 1, 2, 15, 4, 5, 0⟩ ∧
    timeFromLog "[Mon Jan 2 15:04:05.100 2012] b".toList =
      Except.ok ⟨2012, 1, 2, 15, 4, 5, 0⟩ ∧
    GoTime.after ⟨2012, 1, 2, 15, 4, 5, 0⟩ ⟨2012, 1, 2, 15, 4, 5, 0⟩ = false :=
  ⟨rfl, rfl, by decide⟩

/-- Claim C6: the claim states that a failure to launch the external
indexing process is propagated as an error. In the source the result of
`cmd.Run()` is assigned to `err` at line 119 and never examined, so with a
failing launch and an empty log `reindex` still returns nil (success). -/
theorem c6_launch_error_ignored :
    reindex [] [] (Except.error "launch failed") = Except.ok () := rfl

/-- Claim C7: on an empty (zero-line) log file the captured watermark is
`baseDate`, the fixed epoch 2012-09-07T10:00:00, and any timestamp whose
instant is strictly greater compares strictly after it. -/
theorem c7_empty_log_watermark :
    getLastTimestamp [] = Except.ok baseDate ∧
    baseDate = ⟨2012, 9, 7, 10, 0, 0, 0⟩ ∧
    ∀ t : GoTime, baseDate.key < t.key → t.after baseDate = true := by
  refine ⟨rfl, by decide, ?_⟩
  intro t h
  exact decide_eq_true h

theorem c7_empty_log_watermark_witness :
    GoTime.after ⟨2013, 1, 1, 0, 0, 0, 0⟩ baseDate = true :=
  c7_empty_log_watermark.2.2 ⟨2013, 1, 1, 0, 0, 0, 0⟩ (by decide)

/-- Claim C9: every decoded request whose type is neither `ping` nor
`reindex` is answered with `{Message: "", Error: "Unknown request: " +
Type}` with the literal type string. -/
theorem c9_unknown_request (req : Request) (logAtCapture logAtPoll : List Char)
    (launchResult : Except String Unit)
    (h1 : req.type ≠ "ping") (h2 : req.type ≠ "reindex") :
    handleDecoded req logAtCapture logAtPoll launchResult =
      Response.mk "" ("Unknown request: " ++ req.type) := by
  simp [handleDecoded, h1, h2]

theorem c9_unknown_request_witness :
    handleDecoded (Request.mk "status" "idx") [] [] (Except.ok ()) =
      Response.mk "" "Unknown request: status" :=
  c9_unknown_request (Request.mk "status" "idx") [] [] (Except.ok ())
    (by decide) (by decide)

/-- Claim C10: a line matched by the bracketed-prefix regex whose composed
date-and-year text fails `time.Parse` still extracts successfully (nil
error) to the zero time value, because the parse error is discarded by
`date, _ := time.Parse(...)` at src line 209. -/
theorem c10_parse_error_discarded (line g1 ms yr : List Char)
    (h1 : findSubmatch line = some (g1, ms, yr))
    (h2 : parseGoTime (g1 ++ ' ' :: yr) = none) :
    timeFromLog line = Except.ok zeroTime := by
  rw [timeFromLog, h1]
  show Except.ok ((parseGoTime (g1 ++ ' ' :: yr)).getD zeroTime) = Except.ok zeroTime
  rw [h2]
  rfl

theorem c10_parse_error_discarded_witness :
    timeFromLog "[Mon Jan 2.500 2012]".toList = Except.ok zeroTime :=
  c10_parse_error_discarded "[Mon Jan 2.500 2012]".toList
    "Mon Jan 2".toList "500".toList "2012".toList (by decide) (by decide)

/-- Claim C2, counterexample: the claim states that each iteration
re-reads the tail window from the current end of file and inspects the
single most recent complete line, stopping immediately exactly when that
line matches the marker with a post-watermark timestamp. On a log whose
most recent line is exactly such a line but whose window has an earlier
non-matching line, the poller runs all 10 iterations instead of stopping
at the first: it inspects only the first line of a window read once. -/
theorem c2_poller_counterexample :
    breakCondB
      (specMostRecentLine
        "junk\n[Mon Jan 2 15:04:05.000 2013] rotating index: all indexes done\n".toList)
      markerExpr baseDate = true ∧
    specPollCount
      "junk\n[Mon Jan 2 15:04:05.000 2013] rotating index: all indexes done\n".toList
      markerExpr baseDate = 1 ∧
    waitForRotationGo
      "junk\n[Mon Jan 2 15:04:05.000 2013] rotating index: all indexes done\n".toList
      markerExpr baseDate = (Except.ok (), 10) ∧
    inspectedLine
      "junk\n[Mon Jan 2 15:04:05.000 2013] rotating index: all indexes done\n".toList ≠
    specMostRecentLine
      "junk\n[Mon Jan 2 15:04:05.000 2013] rotating index: all indexes done\n".toList :=
  ⟨by decide, by decide, rfl, by decide⟩

/-- Claim C2, amended: the poller opens the log and seeks to the tail
window once, before iterating; on a file that does not change during the
poll, the scanner of the first iteration consumes the whole window and yields
its first complete line, so later iterations yield nothing. The poll stops
after one iteration exactly when that first window line is nonempty,
matches the prefixed marker pattern and carries an extracted timestamp
strictly after the watermark; otherwise it runs all 10 iterations. In
every case it returns success. -/
theorem c2_poller_first_line_once (content expression : List Char) (threshold : GoTime) :
    waitForRotationGo content expression threshold =
      (Except.ok (),
       if breakCondB (inspectedLine content) expression threshold then 1 else 10) :=
  waitForRotation_closed content expression threshold

/-- Claim C4, counterexample: the claim states that the tail reader seeks
to `max(0, length − 1024)` and returns all lines of a file shorter than
1024 bytes, including the first byte. For the 3-byte file `"ab\n"` the
seek of the source lands at offset 1, not `max(0, 3 − 1024) = 0`, and the lines
read are `["b"]`, not the full line list `["ab"]`. -/
theorem c4_tail_window_counterexample :
    tailSeekPos 3 = 1 ∧ max 0 (3 - 1024) = (0 : Nat) ∧
    goScanLines (tailWindow "ab\n".toList) = ["b".toList] ∧
    goScanLines "ab\n".toList = ["ab".toList] :=
  ⟨by decide, by decide, by decide, by decide⟩

/-- Claim C4, amended: the tail reader seeks to offset
`L − min(1024, max(L − 1, 0))` for a file of length `L` — this reads at
most the last 1024 bytes, and agrees with `max(0, L − 1024)` for files of
at least 1025 bytes — but for a nonempty file of at most 1025 bytes the
offset is 1, so the window is the file with its first byte dropped; only
the empty file is returned whole. -/
theorem c4_tail_window (content : List Char) :
    (tailWindow content).length ≤ 1024 ∧
    (1025 ≤ content.length → tailSeekPos content.length = content.length - 1024) ∧
    (1 ≤ content.length → content.length ≤ 1025 → tailWindow content = content.drop 1) ∧
    (content.length = 0 → tailWindow content = content) := by
  refine ⟨?_, ?_, ?_, ?_⟩
  · rw [tailWindow, List.length_drop, tailSeekPos]
    omega
  · intro h
    rw [tailSeekPos]
    omega
  · intro h1 h2
    have hp : tailSeekPos content.length = 1 := by rw [tailSeekPos]; omega
    rw [tailWindow, hp]
  · intro h
    have hp : tailSeekPos content.length = 0 := by rw [tailSeekPos]; omega
    rw [tailWindow, hp]
    rfl

theorem c4_tail_window_witness :
    (tailWindow "ab\nc".toList).length ≤ 1024 ∧
    tailWindow "ab\nc".toList = "ab\nc".toList.drop 1 :=
  ⟨(c4_tail_window "ab\nc".toList).1,
   (c4_tail_window "ab\nc".toList).2.2.1 (by decide) (by decide)⟩

/-- Claim C5: on a log none of whose tail-window lines matches the
completion marker with a post-watermark timestamp, the poller performs
exactly its bounded 10 iterations and returns success (nil), raising no
timeout or exhaustion error. -/
theorem c5_exhaustion_returns_success (content expression : List Char) (threshold : GoTime)
    (h : ∀ l ∈ goScanLines (tailWindow content), matchesAfterB l expression threshold = false) :
    waitForRotationGo content expression threshold = (Except.ok (), 10) := by
  rw [waitForRotation_closed]
  have hb : breakCondB (inspectedLine content) expression threshold = false := by
    rw [inspectedLine]
    cases hl : goScanLines (tailWindow content) with
    | nil => simp [breakCondB]
    | cons a tl =>
      have ha : matchesAfterB a expression threshold = false := by
        apply h
        rw [hl]
        exact List.mem_cons_self a tl
      simp [breakCondB, ha]
  rw [hb]
  rfl

theorem c5_exhaustion_returns_success_witness :
    waitForRotationGo "hello\n".toList markerExpr baseDate = (Except.ok (), 10) :=
  c5_exhaustion_returns_success "hello\n".toList markerExpr baseDate (by decide)

/-- Claim C8, counterexample: the claim states that an inspected line
failing timestamp extraction aborts the poll with a parse error. On a log
whose only inspected line (`"unk"`, the first line of the window) fails
extraction, the poller does not abort: it skips the line, runs all 10
iterations and returns success. -/
theorem c8_parse_abort_counterexample :
    timeFromLog (inspectedLine "junk\n".toList) =
      Except.error "Could not match a timestamp prefix" ∧
    waitForRotationGo "junk\n".toList markerExpr baseDate = (Except.ok (), 10) :=
  ⟨rfl, rfl⟩

/-- Claim C8, amended: a line failing timestamp extraction is skipped, not
aborted: the poller calls the extractor only on lines already matched by
the prefixed marker regex, whose prefix part guarantees extraction
succeeds, so the parse-error return path is unreachable — the poll always
returns success, and when the inspected line fails extraction the loop
runs all 10 iterations. -/
theorem c8_malformed_lines_skipped (content expression : List Char) (threshold : GoTime) :
    waitForRotation content expression threshold = Except.ok () ∧
    (∀ s : String, timeFromLog (inspectedLine content) = Except.error s →
      pollCount content expression threshold = 10) := by
  constructor
  · rw [waitForRotation, waitForRotation_closed]
  · intro s hs
    have hm : hasMarkerMatch (inspectedLine content) expression = false :=
      marker_false_of_error hs
    rw [pollCount, waitForRotation_closed]
    simp [breakCondB, matchesAfterB, hm]

theorem c8_malformed_lines_skipped_witness :
    pollCount "junk\n".toList markerExpr baseDate = 10 :=
  (c8_malformed_lines_skipped "junk\n".toList markerExpr baseDate).2
    "Could not match a timestamp prefix" rfl

set_option maxRecDepth 100000 in
/-- Claim C3: the claim states that a connection whose payload is the
valid JSON object with type `ping` is answered with `(Message: "pong",
Error: "")`. The source reads the payload into a fixed 1024-byte buffer
and passes the whole buffer to `json.Unmarshal`, ignoring the read count;
for the 15-byte payload the 1009 trailing NUL bytes make the decode fail,
and the handler answers with a decode error instead of pong. The dispatch
itself would answer pong on a successfully decoded ping request. -/
theorem c3_ping_buffer_decode_failure :
    handleRequest "\x7b\"Type\":\"ping\"\x7d".toList [] [] (Except.ok ()) =
      Response.mk ""
        "Could not decode the request JSON: invalid trailing character after top-level value" ∧
    Response.mk ""
        "Could not decode the request JSON: invalid trailing character after top-level value" ≠
      Response.mk "pong" "" ∧
    handleDecoded (Request.mk "ping" "") [] [] (Except.ok ()) = Response.mk "pong" "" :=
  ⟨rfl, by decide, rfl⟩

end SphinxReindexer
